import Mathlib

/-!
Verification of the tuipaz modal editor core: the command interpreter
(`src/app/src/tui/editor.rs`), the link annotation store and its
save-time synchronization protocol (`src/app/src/tui/events.rs`,
`src/app/src/db/db_mac.rs`).  Rust machine integers are modelled as
`Nat`/`Int` with explicit wrap-around (`% 2^w`) where the source casts,
and operations that can panic (slice indexing out of bounds, unsigned
underflow, `.expect`) are modelled as `Option`/partial results where
`none` stands for a panic.
-/

namespace Tuipaz

/-- Modulus of Rust `u32`. -/
def u32M : Nat := 4294967296

/-- Modulus of Rust `u16`. -/
def u16M : Nat := 65536

/-- Modulus of Rust `u64`/`usize` (64-bit target). -/
def u64M : Nat := 18446744073709551616

/-- Rust `usize as i64` cast semantics on a 64-bit target: values below
`2^63` are unchanged, larger ones wrap to negative. -/
def usizeToI64 (n : Nat) : Int :=
  if n < 9223372036854775808 then (n : Int) else (n : Int) - (u64M : Int)

/-- Rust `i64 as usize` cast semantics on a 64-bit target: wrap modulo
`2^64`. -/
def i64ToUsize (i : Int) : Nat :=
  (i % (u64M : Int)).toNat

/-- Editor modes, from `enum EditorMode` in `editor.rs`. -/
inductive EditorMode
  | Insert
  | Normal
  | Visual
deriving DecidableEq, Repr

/-- Pending multi-key command states, from `enum CommandState` in
`editor.rs`. -/
inductive CommandState
  | NoCommand
  | Delete
  | Yank
  | GoTo
  | FindForward
  | FindBackward
  | PrimeHop
  | ExecuteHop
deriving DecidableEq, Repr

/-- The link annotation record, from `struct Link` in `editor.rs`.
Rust types: `id`, `text_id`, `linked_id` are `i64` (here `Int`);
`row`, `start_col`, `end_col` are `usize` (here `Nat`). -/
structure Link where
  id : Int
  text_id : Int
  linked_id : Int
  row : Nat
  start_col : Nat
  end_col : Nat
  saved : Bool
  updated : Bool
  deleted : Bool
deriving DecidableEq, Repr

/-- Persisted link row, from `struct DbNoteLink` in `db_mac.rs`; all
fields are `i64`. -/
structure DbNoteLink where
  parent_note_id : Int
  textarea_id : Int
  textarea_row : Int
  start_col : Int
  end_col : Int
  linked_note_id : Int
deriving DecidableEq, Repr

/-- The text buffer's own anchor record, `tuipaz_textarea::Link`
(`id` is `usize`; geometry is `usize`). -/
structure TaLink where
  ta_id : Nat
  ta_row : Nat
  ta_start_col : Nat
  ta_end_col : Nat
  edited : Bool
  ta_deleted : Bool
deriving DecidableEq, Repr

/-- The `Link::from_db_link` constructor in `editor.rs`: rehydrates a
session link from a persisted row (`as usize` casts on the geometry),
with `saved := true, updated := false, deleted := false`. -/
def Link.from_db_link (d : DbNoteLink) : Link :=
  { id := d.parent_note_id
    text_id := d.textarea_id
    linked_id := d.linked_note_id
    row := i64ToUsize d.textarea_row
    start_col := i64ToUsize d.start_col
    end_col := i64ToUsize d.end_col
    saved := true
    updated := false
    deleted := false }

/-- The `Link::to_db_link` method in `editor.rs` (`as i64` casts on the
geometry). -/
def Link.to_db_link (l : Link) : DbNoteLink :=
  { parent_note_id := l.id
    textarea_id := l.text_id
    textarea_row := usizeToI64 l.row
    start_col := usizeToI64 l.start_col
    end_col := usizeToI64 l.end_col
    linked_note_id := l.linked_id }

/-- The `Link::moved` predicate in `editor.rs`: true when the anchor
geometry in the text buffer differs from the stored one. -/
def Link.moved (l : Link) (t : TaLink) : Bool :=
  l.row != t.ta_row || l.start_col != t.ta_start_col || l.end_col != t.ta_end_col

/-- The fold inside `Editor::get_num_from_buf` in `editor.rs`: a `u32`
accumulation of `max(n, 10^(len-1-idx) * n)` over the enumerated digit
buffer, finally cast `as u16`.  The explicit `% u32M` / `% u16M` model
the `u32` arithmetic width and the truncating `as u16` cast. -/
def getNumFromBuf (buf : List Nat) : Nat :=
  (buf.enum.foldl
    (fun acc p =>
      (acc + max p.2 ((10 ^ (buf.length - 1 - p.1) % u32M) * p.2 % u32M)) % u32M)
    0) % u16M

/-- Repeat count consumed by an operator: callers of
`Editor::repeat_action` match on `num_buf.len()`, applying the action
once when the buffer is empty and `get_num_from_buf` many times
otherwise (`editor.rs`, e.g. the `x`/`dd` handlers). -/
def dispatchReps (buf : List Nat) : Nat :=
  if buf.isEmpty then 1 else getNumFromBuf buf

/-- Spec-side definition (from the spec's words, for the refinement
claim C4): the base-10 integer formed by concatenating the typed digits
in entry order, first digit most significant. -/
def specRepeatCount (digits : List Nat) : Nat :=
  digits.foldl (fun acc d => 10 * acc + d) 0

theorem specRepeatCount_acc : ∀ (ds : List Nat) (a : Nat),
    ds.foldl (fun acc d => 10 * acc + d) a = a * 10 ^ ds.length + specRepeatCount ds := by
  intro ds
  induction ds with
  | nil => intro a; simp [specRepeatCount]
  | cons d t ih =>
    intro a
    simp only [List.foldl_cons, List.length_cons, specRepeatCount] at *
    rw [ih (10 * a + d), ih (10 * 0 + d)]
    ring

theorem specRepeatCount_cons (d : Nat) (t : List Nat) :
    specRepeatCount (d :: t) = d * 10 ^ t.length + specRepeatCount t := by
  have h := specRepeatCount_acc t (10 * 0 + d)
  simp only [specRepeatCount, List.foldl_cons]
  simpa using h

theorem specRepeatCount_lt (ds : List Nat) (h : ∀ d ∈ ds, d ≤ 9) :
    specRepeatCount ds < 10 ^ ds.length := by
  induction ds with
  | nil => simp [specRepeatCount]
  | cons d t ih =>
    have hd : d ≤ 9 := h d (List.mem_cons_self d t)
    have ht : ∀ x ∈ t, x ≤ 9 := fun x hx => h x (List.mem_cons_of_mem d hx)
    have h1 := ih ht
    have h2 : specRepeatCount (d :: t) = d * 10 ^ t.length + specRepeatCount t :=
      specRepeatCount_cons d t
    have h3 : d * 10 ^ t.length ≤ 9 * 10 ^ t.length :=
      Nat.mul_le_mul_right _ hd
    have h4 : (10 : Nat) ^ (d :: t).length = 10 * 10 ^ t.length := by
      rw [List.length_cons, pow_succ]; ring
    rw [h2, h4]
    linarith

theorem getNum_fold (L : Nat) (hL : L ≤ 9) :
    ∀ (ds : List Nat) (k acc : Nat), (∀ d ∈ ds, d ≤ 9) → L = k + ds.length →
      acc + specRepeatCount ds < u32M →
      (List.enumFrom k ds).foldl
        (fun acc p => (acc + max p.2 ((10 ^ (L - 1 - p.1) % u32M) * p.2 % u32M)) % u32M)
        acc = acc + specRepeatCount ds := by
  intro ds
  induction ds with
  | nil =>
    intro k acc _ _ _
    simp [specRepeatCount, List.enumFrom]
  | cons d t ih =>
    intro k acc hd hlen hbound
    have hd9 : d ≤ 9 := hd d (List.mem_cons_self d t)
    have ht9 : ∀ x ∈ t, x ≤ 9 := fun x hx => hd x (List.mem_cons_of_mem d hx)
    have he : L - 1 - k = t.length := by
      rw [List.length_cons] at hlen; omega
    have hcons := specRepeatCount_cons d t
    have hexp : t.length ≤ 8 := by rw [List.length_cons] at hlen; omega
    have h10 : (10 : Nat) ^ t.length < u32M := by
      have : (10 : Nat) ^ t.length ≤ 10 ^ 8 := Nat.pow_le_pow_right (by norm_num) hexp
      have h8 : (10 : Nat) ^ 8 < u32M := by norm_num [u32M]
      omega
    have hmul : (10 : Nat) ^ t.length * d < u32M := by
      have h1 : (10 : Nat) ^ t.length * d ≤ 10 ^ 8 * 9 :=
        Nat.mul_le_mul (Nat.pow_le_pow_right (by norm_num) hexp) hd9
      have h2 : (10 : Nat) ^ 8 * 9 < u32M := by norm_num [u32M]
      omega
    have hdle : d ≤ 10 ^ t.length * d := by
      have := Nat.pos_pow_of_pos (n := 10) t.length (by norm_num)
      calc d = 1 * d := (one_mul d).symm
      _ ≤ 10 ^ t.length * d := Nat.mul_le_mul_right d this
    have houter : acc + 10 ^ t.length * d < u32M := by
      have hb : acc + (d * 10 ^ t.length + specRepeatCount t) < u32M := by
        rw [← hcons]; exact hbound
      have : (10 : Nat) ^ t.length * d = d * 10 ^ t.length := mul_comm _ _
      linarith
    have step : (acc + max d ((10 ^ (L - 1 - k) % u32M) * d % u32M)) % u32M
        = acc + 10 ^ t.length * d := by
      rw [he, Nat.mod_eq_of_lt h10, Nat.mod_eq_of_lt hmul,
        Nat.max_eq_right hdle, Nat.mod_eq_of_lt houter]
    show (List.foldl _ acc ((k, d) :: List.enumFrom (k + 1) t)) = _
    rw [List.foldl_cons]
    have hb2 : (acc + 10 ^ t.length * d) + specRepeatCount t < u32M := by
      have hb : acc + (d * 10 ^ t.length + specRepeatCount t) < u32M := by
        rw [← hcons]; exact hbound
      have : (10 : Nat) ^ t.length * d = d * 10 ^ t.length := mul_comm _ _
      linarith
    have hlen2 : L = (k + 1) + t.length := by
      rw [List.length_cons] at hlen; omega
    show List.foldl
        (fun acc p => (acc + max p.2 ((10 ^ (L - 1 - p.1) % u32M) * p.2 % u32M)) % u32M)
        ((acc + max d ((10 ^ (L - 1 - k) % u32M) * d % u32M)) % u32M)
        (List.enumFrom (k + 1) t) = acc + specRepeatCount (d :: t)
    rw [step, ih (k + 1) _ ht9 hlen2 hb2, hcons]
    ring

theorem getNumFromBuf_spec (buf : List Nat) (hd : ∀ d ∈ buf, d ≤ 9)
    (hl : buf.length ≤ 9) : getNumFromBuf buf = specRepeatCount buf % u16M := by
  unfold getNumFromBuf
  have hb : (0 : Nat) + specRepeatCount buf < u32M := by
    have h1 := specRepeatCount_lt buf hd
    have h2 : (10 : Nat) ^ buf.length ≤ 10 ^ 9 := Nat.pow_le_pow_right (by norm_num) hl
    have h3 : (10 : Nat) ^ 9 < u32M := by norm_num [u32M]
    omega
  have henum : buf.enum = List.enumFrom 0 buf := rfl
  rw [henum, getNum_fold buf.length hl buf 0 0 hd (by omega) hb]
  simp

/-- Rust checked `u16` subtraction: `a - b` panics (debug) on underflow,
modelled as `none`. -/
def u16CheckedSub (a b : Nat) : Option Nat :=
  if b ≤ a then some (a - b) else none

/-- Key input as seen by the command interpreter: a character key or any
other key (`Esc`, arrows, ...). -/
inductive KeyInp
  | char (c : Char)
  | other
deriving DecidableEq, Repr

/-- Operations the command interpreter issues against the external text
buffer (`self.body.*` calls in `editor.rs`); the buffer itself is an
external collaborator, so its effects are recorded abstractly. -/
inductive BufOp
  | deleteLine (back : Bool)
  | deleteChar
  | deleteNextChar
  | deleteNextWord
  | deleteWord
  | moveHead
  | moveTop
  | moveDown
  | moveWordBack
  | deleteLineByEnd
  | deleteNewline
  | jump (row col : Nat)
  | setHopPattern (pat : List Char)
  | hopToIdx (i : Nat)
  | clearHop
deriving DecidableEq, Repr

/-- The pieces of `struct Editor` the multi-key command machinery reads
and writes: pending-command state, digit buffer, command buffer, and the
text buffer's cursor and lines (read by `execute_find`). -/
structure EditorSt where
  cmdState : CommandState
  numBuf : List Nat
  cmdBuf : List Char
  crow : Nat
  ccol : Nat
  lines : List (List Char)
deriving DecidableEq, Repr

/-- The `DELETE_COMMANDS` constant in `editor.rs`. -/
def deleteCommands : List Char := ['d', 'w', 'b', 'j', 'k', 'l', 'h']

/-- The `YANK_COMMANDS` constant in `editor.rs`. -/
def yankCommands : List Char := ['w', 'b', 'j', 'k', 'l', 'h']

/-- The `Editor::execute_delete` method: emits the delete primitive for
the modifier, repeated by the buffered count (`repeat_action`), then
clears `cmd_buf` (and `num_buf` via `repeat_action`) and resets
`cmd_state`. -/
def executeDelete (st : EditorSt) (c : Char) : EditorSt × List BufOp :=
  let reps := dispatchReps st.numBuf
  let st' : EditorSt := { st with numBuf := [], cmdBuf := [], cmdState := .NoCommand }
  match c with
  | 'd' => (st', List.replicate reps (.deleteLine false))
  | 'j' => (st', List.replicate reps (.deleteLine false))
  | 'k' => (st', List.replicate reps (.deleteLine true))
  | 'h' => (st', List.replicate reps .deleteChar)
  | 'l' => (st', List.replicate reps .deleteNextChar)
  | 'w' => (st', List.replicate reps .deleteNextWord)
  | 'b' => (st', List.replicate reps .deleteWord)
  | _ => (st', [])

/-- The `Editor::execute_yank` method: `l`/`w`/`b` emit consuming edits
(the system treats yank as a cut into the buffer's clipboard), any other
modifier clears the pending buffers; `cmd_state` always resets. -/
def executeYank (st : EditorSt) (c : Char) : EditorSt × List BufOp :=
  let st' : EditorSt := { st with numBuf := [], cmdBuf := [], cmdState := .NoCommand }
  match c with
  | 'l' =>
    let ops := if st.numBuf.isEmpty then
        [BufOp.moveHead, BufOp.deleteLineByEnd, BufOp.deleteNewline]
      else
        (List.replicate (getNumFromBuf st.numBuf)
          [BufOp.moveHead, BufOp.deleteLineByEnd, BufOp.deleteNewline, BufOp.moveDown]).flatten
    (st', ops)
  | 'w' => (st', List.replicate (dispatchReps st.numBuf) .deleteWord)
  | 'b' =>
    (st', (List.replicate (dispatchReps st.numBuf)
      [BufOp.moveWordBack, BufOp.deleteWord]).flatten)
  | _ => (st', [])

/-- The `Editor::execute_goto` method: with a non-empty digit buffer it
jumps to `CursorMove::Jump(num - 1, 0)` where `num : u16` — `none`
models the unsigned underflow when `num = 0`; with an empty buffer it
moves to the top of the note. -/
def executeGoto (st : EditorSt) (c : Char) : Option (EditorSt × List BufOp) :=
  match c with
  | 'g' =>
    if st.numBuf.isEmpty then
      some ({ st with cmdBuf := [], cmdState := .NoCommand }, [.moveTop, .moveHead])
    else
      match u16CheckedSub (getNumFromBuf st.numBuf) 1 with
      | none => none
      | some r =>
        some ({ st with numBuf := [], cmdBuf := [], cmdState := .NoCommand },
          [.jump r 0])
  | _ => some ({ st with numBuf := [], cmdBuf := [], cmdState := .NoCommand }, [])

/-- The `Editor::execute_find` method: scans the current line only,
forward from `cursor.1 + 1` or backward before `cursor.1 - 1`.  `none`
models the two panics in the source: slicing `&line[cursor.1 + 1..]`
with the cursor at end of line, and the `usize` underflow of
`cursor.1 - 1` at column 0 (plus out-of-range line indexing). -/
def executeFind (st : EditorSt) (target : Char) (forward : Bool) :
    Option (EditorSt × List BufOp) :=
  match st.lines.get? st.crow with
  | none => none
  | some line =>
    let cleared : EditorSt := { st with cmdBuf := [], numBuf := [], cmdState := .NoCommand }
    if forward then
      if st.ccol + 1 > line.length then none
      else
        match (line.drop (st.ccol + 1)).findIdx? (fun ch => ch = target) with
        | some col => some (cleared, [.jump (st.crow % u16M) ((st.ccol + 1 + col) % u16M)])
        | none => some (cleared, [])
    else
      if st.ccol = 0 then none
      else if st.ccol - 1 > line.length then none
      else
        match ((line.take (st.ccol - 1)).reverse).findIdx? (fun ch => ch = target) with
        | some col => some (cleared, [.jump (st.crow % u16M) ((st.ccol - 2 - col) % u16M)])
        | none => some (cleared, [])

/-- The `Editor::prime_hop` method: hands the two-character search key to
the text buffer and moves to `ExecuteHop`; neither buffer is cleared. -/
def primeHop (st : EditorSt) : EditorSt × List BufOp :=
  ({ st with cmdState := .ExecuteHop }, [.setHopPattern st.cmdBuf])

/-- The `Editor::execute_hop` method: jumps to the match selected by the
buffered digits and clears all pending state. -/
def executeHop (st : EditorSt) : EditorSt × List BufOp :=
  ({ st with cmdBuf := [], numBuf := [], cmdState := .NoCommand },
    [.hopToIdx (getNumFromBuf st.numBuf), .clearHop])

/-- The `Editor::process_command_key_inputs` method, dispatching one key
while a multi-key command is pending.  A non-`Char` key falls through
the `if let Key::Char(c)` and changes nothing; a `Char` key is first
pushed onto `cmd_buf` and then matched against the pending state. -/
def processCommandKeyInputs (st : EditorSt) (inp : KeyInp) :
    Option (EditorSt × List BufOp) :=
  match inp with
  | .other => some (st, [])
  | .char c =>
    let st1 : EditorSt := { st with cmdBuf := st.cmdBuf ++ [c] }
    if deleteCommands.contains c ∧ st1.cmdState = .Delete then
      some (executeDelete st1 c)
    else if yankCommands.contains c ∧ st1.cmdState = .Yank then
      some (executeYank st1 c)
    else if c = 'g' ∧ st1.cmdState = .GoTo then
      executeGoto st1 c
    else if st1.cmdState = .FindForward then
      executeFind st1 c true
    else if st1.cmdState = .FindBackward then
      executeFind st1 c false
    else if st1.cmdState = .PrimeHop then
      if st1.cmdBuf.length = 2 then some (primeHop st1) else some (st1, [])
    else if st1.cmdState = .ExecuteHop then
      if c.isDigit then some ({ st1 with numBuf := st1.numBuf ++ [c.toNat - 48] }, [])
      else if c = 'h' then some (executeHop st1)
      else some (st1, [])
    else
      some ({ st1 with cmdState := .NoCommand }, [])

/-- The `Editor::prime_command_state` method, handling a key in
Normal/Visual mode with no command pending: digits accumulate in
`num_buf`, operator-opening characters set the matching state, an
unrecognized character clears `cmd_buf` only, and a non-`Char` key
clears everything. -/
def primeCommandState (st : EditorSt) (inp : KeyInp) : EditorSt :=
  match inp with
  | .char c =>
    if c.isDigit then { st with numBuf := st.numBuf ++ [c.toNat - 48] }
    else
      match c, st.cmdState with
      | 'd', .NoCommand => { st with cmdBuf := st.cmdBuf ++ ['d'], cmdState := .Delete }
      | 'g', .NoCommand => { st with cmdBuf := st.cmdBuf ++ ['g'], cmdState := .GoTo }
      | 'y', .NoCommand => { st with cmdBuf := st.cmdBuf ++ ['y'], cmdState := .Yank }
      | 'f', .NoCommand => { st with cmdBuf := st.cmdBuf ++ ['f'], cmdState := .FindForward }
      | 'F', .NoCommand => { st with cmdBuf := st.cmdBuf ++ ['F'], cmdState := .FindBackward }
      | 's', .NoCommand => { st with cmdState := .PrimeHop }
      | _, _ => { st with cmdState := .NoCommand, cmdBuf := [] }
  | .other => { st with cmdBuf := [], numBuf := [], cmdState := .NoCommand }

/-- The mode-dependent pieces of editor state that `Editor::set_mode`
touches: the active selection, the search highlight, the mode and the
status-line text. -/
structure ModeSt where
  mode : EditorMode
  selectionActive : Bool
  searchActive : Bool
  blockInfo : String
deriving DecidableEq, Repr

/-- The `Editor::set_mode` method in `editor.rs`: Insert cancels the
selection and clears the search; Normal only cancels the selection;
Visual starts a selection and clears the search. -/
def setMode (e : ModeSt) (m : EditorMode) : ModeSt :=
  match m with
  | .Insert =>
    { e with
      mode := m
      selectionActive := false
      searchActive := false
      blockInfo := " <| INSERT |>" }
  | .Normal =>
    { e with
      mode := m
      selectionActive := false
      blockInfo := " <| NORMAL |>" }
  | .Visual =>
    { e with
      mode := m
      selectionActive := true
      searchActive := false
      blockInfo := " <| VISUAL |>" }

/-- The `Events::check_links_to_update` classification predicate in
`events.rs`. -/
def check_links_to_update (l : Link) : Bool :=
  !l.deleted && l.saved && l.updated

/-- The `Events::check_links_to_save` classification predicate in
`events.rs`. -/
def check_links_to_save (l : Link) : Bool :=
  !l.deleted && !l.saved

/-- The `Events::check_links_to_delete` classification predicate in
`events.rs`. -/
def check_links_to_delete (l : Link) : Bool :=
  l.deleted && l.saved

/-- Per-link effect of the post-commit bookkeeping loop in
`Events::save_note` (`if !link.saved { link.saved = true; }`). -/
def markSavedLink (l : Link) : Link :=
  if !l.saved then { l with saved := true } else l

/-- The whole post-commit bookkeeping loop in `Events::save_note`, run
over every value of the link map after `sync_db_links` succeeds.  It is
the only mutation of the map performed on success: nothing is removed
and no other flag is touched. -/
def markLinksSaved (links : List Link) : List Link :=
  links.map markSavedLink

/-- Option-valued traversal: the shape of the `for link in
links.values_mut()` loops in `events.rs` whose body can panic via
`.expect` (`none` models the panic). -/
def mapMopt (f : α → Option β) : List α → Option (List β)
  | [] => some []
  | a :: t =>
    match f a, mapMopt f t with
    | some b, some bs => some (b :: bs)
    | _, _ => none

/-- The `Events::check_link_edits` reconciliation step in `events.rs`:
for every stored link, look its id up in the text buffer's anchor table
and copy the anchor's deleted flag; a missing anchor hits
`.expect("editor links and textarea links should be synced")`,
modelled as `none`. -/
def checkLinkEdits (links : List Link) (ta : List (Nat × TaLink)) :
    Option (List Link) :=
  mapMopt (fun l =>
    match ta.lookup (i64ToUsize l.text_id) with
    | none => none
    | some t => some { l with deleted := t.ta_deleted }) links

/-- The `Events::check_link_moved` reconciliation step in `events.rs`:
for every stored link whose anchor geometry moved, copy the new geometry
and set `updated`; a missing anchor hits
`.expect("Same links should be present in editor and textarea")`,
modelled as `none`. -/
def checkLinkMoved (links : List Link) (ta : List (Nat × TaLink)) :
    Option (List Link) :=
  mapMopt (fun l =>
    match ta.lookup (i64ToUsize l.text_id) with
    | none => none
    | some t =>
      if l.moved t then
        some { l with
          row := t.ta_row
          start_col := t.ta_start_col
          end_col := t.ta_end_col
          updated := true }
      else some l) links

/-- Transaction legs of the synchronization protocol, used to label the
aggregated error exactly as the `eyre!` messages in
`Events::sync_db_links` do (`save_links`, `delete_links`,
`update_links`). -/
inductive Leg
  | save
  | delete
  | update
deriving DecidableEq, Repr

/-- Effect on the `links` table of the UPDATE statements issued by
`DbMac::update_links`: one geometry update per link, keyed on
`(parent_note_id, linked_note_id, textarea_id)`. -/
def updateLinksDb (db : List DbNoteLink) (links : List DbNoteLink)
    (parent : Int) : List DbNoteLink :=
  links.foldl
    (fun db l =>
      db.map (fun row =>
        if row.parent_note_id = parent ∧ row.linked_note_id = l.linked_note_id
            ∧ row.textarea_id = l.textarea_id then
          { row with
            textarea_row := l.textarea_row
            start_col := l.start_col
            end_col := l.end_col }
        else row))
    db

/-- Effect on the `links` table of the multi-row INSERT built by
`DbMac::save_links` (the bound `parent_note_id` replaces the one in each
row). -/
def saveLinksDb (db : List DbNoteLink) (links : List DbNoteLink)
    (parent : Int) : List DbNoteLink :=
  db ++ links.map (fun l => { l with parent_note_id := parent })

/-- Effect on the `links` table of the DELETE statement built by
`DbMac::delete_links`: drop every row whose
`(parent_note_id, textarea_id)` pair is listed. -/
def deleteLinksDb (db : List DbNoteLink) (ids : List (Int × Int)) :
    List DbNoteLink :=
  db.filter (fun row => !(ids.contains (row.parent_note_id, row.textarea_id)))

/-- The `Events::update_links` leg: filter the map with
`check_links_to_update`, and call `DbMac::update_links` only when the
set is non-empty.  The statements execute on the pool (`.execute(db)` in
`db_mac.rs`), so on success they mutate the shared table directly; `err`
injects an environmental database failure of the leg. -/
def runUpdateLeg (links : List Link) (noteId : Int) (db : List DbNoteLink)
    (err : Option ε) : List DbNoteLink × Option ε :=
  let toUpd := (links.filter check_links_to_update).map Link.to_db_link
  if toUpd.isEmpty then (db, none)
  else
    match err with
    | some e => (db, some e)
    | none => (updateLinksDb db toUpd noteId, none)

/-- The `Events::save_links` leg (insert), same conventions as
`runUpdateLeg`. -/
def runSaveLeg (links : List Link) (noteId : Int) (db : List DbNoteLink)
    (err : Option ε) : List DbNoteLink × Option ε :=
  let toSave := (links.filter check_links_to_save).map Link.to_db_link
  if toSave.isEmpty then (db, none)
  else
    match err with
    | some e => (db, some e)
    | none => (saveLinksDb db toSave noteId, none)

/-- The `Events::delete_links` leg, same conventions as
`runUpdateLeg`. -/
def runDeleteLeg (links : List Link) (noteId : Int) (db : List DbNoteLink)
    (err : Option ε) : List DbNoteLink × Option ε :=
  let toDel := (links.filter check_links_to_delete).map (fun l => (noteId, l.text_id))
  if toDel.isEmpty then (db, none)
  else
    match err with
    | some e => (db, some e)
    | none => (deleteLinksDb db toDel, none)

/-- The `Events::sync_db_links` function in `events.rs`: run the three
legs in source order (update, save/insert, delete), then match on the
result triple `(save, delete, update)` exactly as the source does,
producing the aggregated error labelled by the legs each `eyre!` message
names.  Every SQL statement ran on the pool, not on the transaction
`tx`, so `tx.commit()`/`tx.rollback()` leave the already-applied writes
in place: the resulting table state is the same in every arm. -/
def syncDbLinks (links : List Link) (noteId : Int) (db : List DbNoteLink)
    (updErr insErr delErr : Option ε) :
    List DbNoteLink × Except (List (Leg × ε)) Unit :=
  let p1 := runUpdateLeg links noteId db updErr
  let p2 := runSaveLeg links noteId p1.1 insErr
  let p3 := runDeleteLeg links noteId p2.1 delErr
  match p2.2, p3.2, p1.2 with
  | none, none, none => (p3.1, Except.ok ())
  | some se, none, none => (p3.1, Except.error [(Leg.update, se)])
  | none, some de, none => (p3.1, Except.error [(Leg.delete, de)])
  | none, none, some ue => (p3.1, Except.error [(Leg.update, ue)])
  | some se, some de, none => (p3.1, Except.error [(Leg.save, se), (Leg.delete, de)])
  | none, some de, some ue => (p3.1, Except.error [(Leg.delete, de), (Leg.update, ue)])
  | some se, none, some ue => (p3.1, Except.error [(Leg.save, se), (Leg.update, ue)])
  | some se, some de, some ue =>
    (p3.1, Except.error [(Leg.save, se), (Leg.delete, de), (Leg.update, ue)])

theorem check_save_markSaved (l : Link) :
    check_links_to_save (markSavedLink l) = false := by
  cases hs : l.saved <;> simp [markSavedLink, check_links_to_save, hs]

theorem check_update_markSaved (l : Link) :
    check_links_to_update (markSavedLink l) = (!l.deleted && l.updated) := by
  cases hs : l.saved <;> simp [markSavedLink, check_links_to_update, hs]

theorem check_delete_markSaved (l : Link) :
    check_links_to_delete (markSavedLink l) = l.deleted := by
  cases hs : l.saved <;> simp [markSavedLink, check_links_to_delete, hs]

theorem mapMopt_none {α β : Type} (f : α → Option β) (xs : List α) (x : α)
    (hx : x ∈ xs) (hf : f x = none) : mapMopt f xs = none := by
  induction xs with
  | nil => cases hx
  | cons a t ih =>
    rcases List.mem_cons.mp hx with h | h
    · subst h
      simp only [mapMopt, hf]
    · simp only [mapMopt, ih h]
      cases f a <;> rfl

theorem usize_cast_roundtrip (n : Nat) (h : n < u64M) :
    i64ToUsize (usizeToI64 n) = n := by
  unfold usizeToI64 i64ToUsize u64M at *
  split <;> omega

/-- Claim C4, counterexample: typing the digit sequence 9 9 9 9 9 before
an operator makes the operator consume repeat count 34463 — the `as u16`
cast in `get_num_from_buf` truncates — and not the base-10 concatenation
99999 the claim requires. -/
theorem c4_repeat_count_counterexample :
    dispatchReps [9, 9, 9, 9, 9] = 34463 ∧
    specRepeatCount [9, 9, 9, 9, 9] = 99999 ∧
    dispatchReps [9, 9, 9, 9, 9] ≠ specRepeatCount [9, 9, 9, 9, 9] := by
  decide

/-- Claim C4, amended: for digit sequences of at most nine digits (so
the `u32` fold in `get_num_from_buf` does not overflow), the repeat
count consumed by an operator is the base-10 integer formed by
concatenating the digits in entry order reduced modulo 2^16 (the
`as u16` cast); with no digits typed the action is applied exactly
once. -/
theorem c4_repeat_count_amended (buf : List Nat) (hd : ∀ d ∈ buf, d ≤ 9)
    (hl : buf.length ≤ 9) :
    dispatchReps buf = if buf.isEmpty then 1 else specRepeatCount buf % u16M := by
  unfold dispatchReps
  cases hb : buf.isEmpty with
  | true => simp [hb]
  | false => simp [hb, getNumFromBuf_spec buf hd hl]

/-- Claim C4, witness: typing 1 then 2 yields repeat count 12. -/
theorem c4_repeat_count_witness :
    dispatchReps [1, 2] =
      if ([1, 2] : List Nat).isEmpty then 1 else specRepeatCount [1, 2] % u16M :=
  c4_repeat_count_amended [1, 2] (by decide) (by decide)

/-- Claim C5, counterexample: with a pending Delete command, digit
buffer `[3]` and command buffer `"d"`, the out-of-completion-set key `z`
resets `cmd_state` but leaves `num_buf` as `[3]` and grows `cmd_buf` to
`"dz"`, contradicting the claimed clearing of both buffers. -/
theorem c5_abort_counterexample :
    processCommandKeyInputs ⟨CommandState.Delete, [3], ['d'], 0, 0, [[]]⟩
        (KeyInp.char 'z')
      = some (⟨CommandState.NoCommand, [3], ['d', 'z'], 0, 0, [[]]⟩, []) ∧
    ([3] : List Nat) ≠ [] ∧ (['d', 'z'] : List Char) ≠ [] := by
  decide

/-- Claim C5, amended: a key outside a pending command's completion set
never edits the text buffer, but the clean-up differs from the claim.
For a Delete, Yank or GoTo with a character key outside the code's
recognized modifier set (`DELETE_COMMANDS`, `YANK_COMMANDS`, `g`), the
final `else` of `process_command_key_inputs` resets CommandState only:
`num_buf` is kept and the key is appended to `cmd_buf`.  For a Yank
followed by `j`, `k` or `h` — inside `YANK_COMMANDS` but with no yank
action — `execute_yank`'s catch-all does clear both `num_buf` and
`cmd_buf` while resetting the state. -/
theorem c5_abort_amended (st : EditorSt) (c : Char) :
    (((st.cmdState = CommandState.Delete ∧ deleteCommands.contains c = false) ∨
      (st.cmdState = CommandState.Yank ∧ yankCommands.contains c = false) ∨
      (st.cmdState = CommandState.GoTo ∧ c ≠ 'g')) →
      processCommandKeyInputs st (KeyInp.char c) =
        some ({ st with cmdState := CommandState.NoCommand, cmdBuf := st.cmdBuf ++ [c] },
          [])) ∧
    ((st.cmdState = CommandState.Yank ∧ (c = 'j' ∨ c = 'k' ∨ c = 'h')) →
      processCommandKeyInputs st (KeyInp.char c) =
        some ({ st with cmdState := CommandState.NoCommand, cmdBuf := [], numBuf := [] },
          [])) := by
  constructor
  · intro h
    unfold processCommandKeyInputs
    rcases h with ⟨h1, h2⟩ | ⟨h1, h2⟩ | ⟨h1, h2⟩
    · have h2' : ¬ (c ∈ deleteCommands) := by simpa using h2
      simp [h1, h2']
    · have h2' : ¬ (c ∈ yankCommands) := by simpa using h2
      simp [h1, h2']
    · simp [h1, h2]
  · rintro ⟨h1, rfl | rfl | rfl⟩ <;>
      simp +decide [processCommandKeyInputs, executeYank, h1]

/-- Claim C5, witness: a pending Yank aborted by `q` keeps `num_buf`
and appends to `cmd_buf`, while a pending Yank fed `j` clears both
buffers. -/
theorem c5_abort_witness :
    processCommandKeyInputs ⟨CommandState.Yank, [2], ['y'], 0, 0, [[]]⟩
        (KeyInp.char 'q')
      = some (⟨CommandState.NoCommand, [2], ['y', 'q'], 0, 0, [[]]⟩, []) ∧
    processCommandKeyInputs ⟨CommandState.Yank, [2], ['y'], 0, 0, [[]]⟩
        (KeyInp.char 'j')
      = some (⟨CommandState.NoCommand, [], [], 0, 0, [[]]⟩, []) := by
  constructor
  · have h := (c5_abort_amended ⟨CommandState.Yank, [2], ['y'], 0, 0, [[]]⟩ 'q').1
      (Or.inr (Or.inl ⟨rfl, by decide⟩))
    simpa using h
  · have h := (c5_abort_amended ⟨CommandState.Yank, [2], ['y'], 0, 0, [[]]⟩ 'j').2
      ⟨rfl, Or.inl rfl⟩
    simpa using h

/-- Claim C6: `execute_find` is not panic-free at the edge cursor
columns.  FindBackward at column 0 evaluates `cursor.1 - 1`, a `usize`
underflow inside the slice `&line[..cursor.1 - 1]`; FindForward with the
cursor at end of line slices `&line[cursor.1 + 1..]` past the end.  Both
panic (modelled as `none`) instead of leaving the cursor unchanged. -/
theorem c6_find_slicing_panics :
    executeFind ⟨CommandState.FindBackward, [], ['F'], 0, 0, [['a', 'b', 'c']]⟩
        'a' false = none ∧
    executeFind ⟨CommandState.FindForward, [], ['f'], 0, 3, [['a', 'b', 'c']]⟩
        'b' true = none := by
  decide

/-- Claim C7: converting a Link to its persisted row (`to_db_link`) and
rehydrating it (`from_db_link`) returns a Link with identical
`(parent_note_id, text_anchor_id, row, start_col, end_col,
linked_note_id)` and flags exactly `saved = true, updated = false,
deleted = false`, for every geometry a `usize` can hold. -/
theorem c7_link_roundtrip (l : Link) (hr : l.row < u64M) (hs : l.start_col < u64M)
    (he : l.end_col < u64M) :
    Link.from_db_link (Link.to_db_link l) =
      { l with saved := true, updated := false, deleted := false } := by
  unfold Link.from_db_link Link.to_db_link
  simp [usize_cast_roundtrip l.row hr, usize_cast_roundtrip l.start_col hs,
    usize_cast_roundtrip l.end_col he]

/-- Claim C7, witness: concrete round trip. -/
theorem c7_link_roundtrip_witness :
    Link.from_db_link (Link.to_db_link ⟨7, 3, 9, 2, 4, 8, false, true, false⟩) =
      { (⟨7, 3, 9, 2, 4, 8, false, true, false⟩ : Link) with
        saved := true, updated := false, deleted := false } :=
  c7_link_roundtrip ⟨7, 3, 9, 2, 4, 8, false, true, false⟩
    (by decide) (by decide) (by decide)

/-- Claim C8, counterexample: switching to Normal mode with an active
search highlight leaves the highlight active — `set_mode` only calls
`clear_search` for Insert and Visual. -/
theorem c8_set_mode_counterexample :
    (setMode ⟨EditorMode.Insert, false, true, " <| INSERT |>"⟩
        EditorMode.Normal).searchActive = true := rfl

/-- Claim C8, amended: `set_mode` cancels the selection on transitions
to Insert and Normal and starts one on Visual; it clears search
highlighting on transitions to Insert and Visual but leaves it unchanged
on transitions to Normal. -/
theorem c8_set_mode_amended (e : ModeSt) (m : EditorMode) :
    (setMode e m).mode = m ∧
    (setMode e m).selectionActive = decide (m = EditorMode.Visual) ∧
    (setMode e m).searchActive =
      (if m = EditorMode.Normal then e.searchActive else false) := by
  cases m <;> simp [setMode]

/-- Claim C9: when some stored Link's id is absent from the text
buffer's anchor table, both reconciliation passes (`check_link_edits`
and `check_link_moved`) hit their `.expect` and panic (`none`) instead
of skipping or patching the link. -/
theorem c9_missing_anchor_panics (links : List Link) (ta : List (Nat × TaLink))
    (l : Link) (hmem : l ∈ links)
    (habs : ta.lookup (i64ToUsize l.text_id) = none) :
    checkLinkEdits links ta = none ∧ checkLinkMoved links ta = none := by
  constructor
  · refine mapMopt_none _ links l hmem ?_
    simp [habs]
  · refine mapMopt_none _ links l hmem ?_
    simp [habs]

/-- Claim C9, witness: a store with one link and an empty anchor table
panics in both passes. -/
theorem c9_missing_anchor_witness :
    checkLinkEdits [⟨1, 5, 2, 0, 0, 1, true, false, false⟩] [] = none ∧
    checkLinkMoved [⟨1, 5, 2, 0, 0, 1, true, false, false⟩] [] = none :=
  c9_missing_anchor_panics _ _ ⟨1, 5, 2, 0, 0, 1, true, false, false⟩
    (by decide) rfl

/-- Claim C10: typing `0 g g` in Normal mode builds `num_buf = [0]`,
`get_num_from_buf` returns 0, and `execute_goto` evaluates `num - 1` on
`u16` with `num = 0`: the subtraction underflows (modelled as `none`)
instead of acting as a no-op or a jump to line 0. -/
theorem c10_goto_zero_count_underflows :
    getNumFromBuf [0] = 0 ∧ u16CheckedSub 0 1 = none ∧
    processCommandKeyInputs
      (primeCommandState
        (primeCommandState ⟨CommandState.NoCommand, [], [], 0, 0, [['x']]⟩
          (KeyInp.char '0'))
        (KeyInp.char 'g'))
      (KeyInp.char 'g') = none := by
  decide

/-- Claim C1: a run of `sync_db_links` in which only the insert leg
fails (while the update leg succeeded) leaves the persisted `links`
table changed — every statement ran on the pool, outside the transaction
`tx`, so the rollback undoes nothing — and returns an aggregated error
that names `update_links`, not the insert leg that actually failed. -/
theorem c1_sync_failed_insert_leg :
    syncDbLinks (ε := Unit)
      [⟨1, 10, 2, 5, 0, 3, true, true, false⟩,
        ⟨1, 11, 2, 0, 0, 2, false, false, false⟩]
      1 [⟨1, 10, 0, 0, 3, 2⟩] none (some ()) none
      = ([⟨1, 10, 5, 0, 3, 2⟩], Except.error [(Leg.update, ())]) ∧
    ([⟨1, 10, 5, 0, 3, 2⟩] : List DbNoteLink) ≠ [⟨1, 10, 0, 0, 3, 2⟩] := by
  exact ⟨rfl, by decide⟩

/-- Claim C2, counterexample: a link in the to-delete set
(`deleted = true, saved = true`) survives the post-commit bookkeeping of
`save_note` unchanged — nothing ever removes it from the map. -/
theorem c2_postcommit_counterexample :
    check_links_to_delete ⟨1, 4, 2, 0, 0, 1, true, false, true⟩ = true ∧
    markLinksSaved [⟨1, 4, 2, 0, 0, 1, true, false, true⟩] =
      [⟨1, 4, 2, 0, 0, 1, true, false, true⟩] := by
  decide

/-- Claim C2, amended: after a successful synchronization run, every
link that was in the to-insert or to-update set has `saved = true`, but
links in the to-delete set are not removed: they stay in the map
unchanged. -/
theorem c2_postcommit_amended (links : List Link) (l : Link) (hmem : l ∈ links) :
    ((check_links_to_save l = true ∨ check_links_to_update l = true) →
      (markSavedLink l).saved = true ∧ markSavedLink l ∈ markLinksSaved links) ∧
    (check_links_to_delete l = true →
      markSavedLink l = l ∧ l ∈ markLinksSaved links) := by
  constructor
  · intro _
    refine ⟨?_, List.mem_map_of_mem markSavedLink hmem⟩
    cases hs : l.saved <;> simp [markSavedLink, hs]
  · intro h
    have hs : l.saved = true := by
      unfold check_links_to_delete at h
      simp at h
      exact h.2
    have heq : markSavedLink l = l := by
      simp [markSavedLink, hs]
    refine ⟨heq, ?_⟩
    have hm := List.mem_map_of_mem markSavedLink hmem
    rwa [heq] at hm

/-- Claim C2, witness: a freshly inserted link gets `saved = true` and
stays in the map. -/
theorem c2_postcommit_witness :
    (markSavedLink ⟨1, 6, 2, 0, 0, 1, false, false, false⟩).saved = true ∧
    markSavedLink ⟨1, 6, 2, 0, 0, 1, false, false, false⟩ ∈
      markLinksSaved [⟨1, 6, 2, 0, 0, 1, false, false, false⟩] :=
  (c2_postcommit_amended [⟨1, 6, 2, 0, 0, 1, false, false, false⟩]
    ⟨1, 6, 2, 0, 0, 1, false, false, false⟩ (by decide)).1 (Or.inl (by decide))

/-- Claim C3, counterexample: after a successful run over a map holding
one link with `saved = true, updated = true, deleted = false`, the
second run's to-update set is that same link again, not empty — the
bookkeeping never clears `updated`. -/
theorem c3_idempotence_counterexample :
    (markLinksSaved [⟨1, 7, 2, 0, 0, 1, true, true, false⟩]).filter
        check_links_to_update = [⟨1, 7, 2, 0, 0, 1, true, true, false⟩] ∧
    ([⟨1, 7, 2, 0, 0, 1, true, true, false⟩] : List Link) ≠ [] := by
  decide

/-- Claim C3, amended: on a second run immediately after a successful
one, the to-insert set is empty, but the to-update set consists of all
non-deleted links with `updated = true` and the to-delete set of all
deleted links — their writes are re-issued because the success
bookkeeping only sets `saved` and neither clears `updated` nor removes
deleted links. -/
theorem c3_second_run_amended (links : List Link) :
    (markLinksSaved links).filter check_links_to_save = [] ∧
    (markLinksSaved links).filter check_links_to_update =
      (links.filter (fun l => !l.deleted && l.updated)).map markSavedLink ∧
    (markLinksSaved links).filter check_links_to_delete =
      (links.filter (fun l => l.deleted)).map markSavedLink := by
  refine ⟨?_, ?_, ?_⟩
  · rw [List.filter_eq_nil_iff]
    intro x hx
    obtain ⟨y, _, rfl⟩ := List.mem_map.mp hx
    simp [check_save_markSaved y]
  · rw [markLinksSaved, List.filter_map]
    congr 1
    refine List.filter_congr ?_
    intro x _
    simp [check_update_markSaved x]
  · rw [markLinksSaved, List.filter_map]
    congr 1
    refine List.filter_congr ?_
    intro x _
    simp [check_delete_markSaved x]

end Tuipaz
